import Mathlib

/-!
# Verification of the ArXivTweetBot2 processing pipeline

A shallow embedding of the core pipeline of the repository:

* `ai_summarizer.generate_summary` — post-text assembly (greeting prefix,
  ellipsis truncation) and the bounded exponential-backoff retry loop around
  the summarization API call;
* `twitter_poster.post_thread` — URL appending under the 280-character cap,
  publish-outcome log records;
* `arxiv_downloader.process_paper` / `arxiv_downloader.main` — the per-paper
  pipeline (fetch, skip check, extract, summarize, publish, ledger mark) and
  the batch coordinator (selection loop, last-paper-publishes policy,
  reported count and publish indicator);
* `run_multiple_searches` — the multi-search orchestrator (per-keyword-set
  watermarks, shared processed-id set, failure isolation, `./dl` symlink
  management, end-of-pass persistence).

Python strings are modelled as `List Char` where character counts matter
(Python `len` counts code points, as does `List.length` on `.data`), and as
`String` where only identity matters (identifiers, keys).  External effects
(network calls, sleeps, file writes) are recorded in explicit event traces.
-/

namespace ArxivBot

/-! ## Post-text assembly (`ai_summarizer.generate_summary`, `twitter_poster.post_thread`) -/

/-- The fixed mascot greeting that `generate_summary` prepends to the model's
summary text: `post_text = f"C(・ω・ )つ みんなー！{summary_text}"`. -/
def greeting : List Char := "C(・ω・ )つ みんなー！".data

/-- The short-form length threshold used by `generate_summary`
(`if original_length > 130`). -/
def shortFormThreshold : Nat := 130

/-- `generate_summary`'s post-text construction: greeting-prefixed summary,
with ellipsis truncation `post_text[:277] + "..."` applied when the
greeting-prefixed text is longer than the short-form threshold. -/
def makePostText (summary : List Char) : List Char :=
  let post := greeting ++ summary
  if post.length > shortFormThreshold then post.take 277 ++ "...".data else post

/-- The canonical reference URL, `f"https://arxiv.org/abs/{arxiv_id}"`. -/
def arxivUrl (id : List Char) : List Char :=
  "https://arxiv.org/abs/".data ++ id

/-- `post_thread`'s URL appending: the URL joins the post text (separated by
two newline characters) only when the total stays within the hard cap of 280,
`if len(post_text) + len(arxiv_url) + 2 <= 280`. -/
def appendUrl (postText url : List Char) : List Char :=
  if postText.length + url.length + 2 ≤ 280 then postText ++ "\n\n".data ++ url
  else postText

/-- The final posted text for a given raw summary and arXiv id: the text that
`post_thread` hands to `create_tweet`.  (`generate_summary` always stores a
`post_text`, so the URL-appending branch inside `process_paper` is dead code;
the effective append site is `post_thread`, with the identical condition.) -/
def finalPost (summary id : List Char) : List Char :=
  appendUrl (makePostText summary) (arxivUrl id)

/-! ## The summarization retry loop (`ai_summarizer.generate_summary`) -/

/-- Outcome of one summarization API attempt; a failure may carry the
HTTP 429 rate-limit signal (`api_error.status_code == 429`). -/
inductive ApiResult
  | success
  | failure (rateLimited : Bool)
deriving DecidableEq

/-- Whether an attempt outcome is a failure. -/
def ApiResult.isFail : ApiResult → Bool
  | .success => false
  | .failure _ => true

/-- `max_retries = 3` in `generate_summary`. -/
def maxRetries : Nat := 3

/-- `backoff_time = 2` (seconds), the initial backoff in `generate_summary`. -/
def initialBackoff : Nat := 2

/-- The body of `generate_summary`'s `while retry_count < max_retries` loop,
driven by the sequence of attempt outcomes.  `rem` is the number of attempts
still allowed, `i` the index of the next attempt, `b` the current backoff.
Returns (success, list of sleeps performed, number of API calls made).
On failure with attempts remaining the loop sleeps `b` then doubles the
backoff; when `retry_count` reaches `max_retries` the exception is re-raised
(no further sleep) and the surrounding handler returns `None`. -/
def retryGo (outcome : Nat → ApiResult) : Nat → Nat → Nat → Bool × List Nat × Nat
  | 0, _, _ => (false, [], 0)
  | rem + 1, i, b =>
    match outcome i with
    | .success => (true, [], 1)
    | .failure _ =>
      if rem = 0 then (false, [], 1)
      else
        let r := retryGo outcome rem (i + 1) (2 * b)
        (r.1, b :: r.2.1, r.2.2 + 1)

/-- The full retry loop as entered by `generate_summary`. -/
def runRetry (outcome : Nat → ApiResult) : Bool × List Nat × Nat :=
  retryGo outcome maxRetries 0 initialBackoff

/-! ## Per-paper pipeline (`arxiv_downloader.process_paper`) -/

/-- A candidate paper: canonical arXiv identifier and title. -/
structure Paper where
  id : String
  title : String
deriving DecidableEq

/-- The external outcomes a single `process_paper` run can observe. -/
structure PaperEnv where
  /-- The PDF file already exists in the download directory, so
  `download_pdf` returns success without a network call. -/
  pdfOnDisk : Bool
  /-- A network download, when attempted, succeeds. -/
  fetchOk : Bool
  /-- `extract_text_from_pdf` succeeds. -/
  extractOk : Bool
  /-- Outcome of each successive summarization API attempt. -/
  summOutcome : Nat → ApiResult
  /-- The summary text returned on a successful summarization. -/
  summaryText : List Char
  /-- `create_tweet` succeeds. -/
  publishOk : Bool
  /-- The `str(e)` recorded in the log when `create_tweet` fails. -/
  publishError : String

/-- A `*_twitter_log.json` record as written by `post_thread` or by the
skip branch of `process_paper`: the arXiv id, the list of posted tweet
texts, and the error text for a failed publish. -/
structure TwitterLog where
  arxivId : String
  tweets : List (List Char)
  error : Option String
deriving DecidableEq

/-- The observable actions of one pipeline run, in order. -/
inductive Event
  | fetchCall (id : String)
  | skipCheck (id : String) (already : Bool)
  | extractCall (id : String)
  | summarizeCall (id : String)
  | sleep (seconds : Nat)
  | publishCall (id : String)
  | writeLog (rec : TwitterLog)
  | markProcessed (id : String)
deriving DecidableEq

/-- The API-call and sleep events of the retry loop: one call, then a sleep
followed by another call for each backoff the loop performed. -/
def mkSummEvents (id : String) : List Nat → List Event
  | [] => [.summarizeCall id]
  | b :: rest => .summarizeCall id :: .sleep b :: mkSummEvents id rest

/-- `process_paper(paper, dirs, openai_client, config, force_process,
skip_twitter)`.  `marked` is the set of ids having a marker file in the
`processed/` directory; the `is_processed` call inside `process_paper`
consults only this directory (it passes no preloaded id set).  Returns the
boolean outcome, the updated marker set, and the event trace. -/
def processPaper (p : Paper) (env : PaperEnv) (marked : List String)
    (force skipTwitter : Bool) : Bool × List String × List Event :=
  if (env.pdfOnDisk || env.fetchOk) = false then
    (false, marked, [.fetchCall p.id])
  else
    let already := marked.contains p.id
    let ev0 : List Event := [.fetchCall p.id, .skipCheck p.id already]
    if already && !force then
      (true, marked, ev0)
    else if env.extractOk = false then
      (false, marked, ev0 ++ [.extractCall p.id])
    else
      let r := runRetry env.summOutcome
      let ev1 := ev0 ++ [.extractCall p.id] ++ mkSummEvents p.id r.2.1
      if r.1 = false then
        (false, marked, ev1)
      else
        let postText := finalPost env.summaryText p.id.data
        if skipTwitter = false then
          if env.publishOk then
            (true, marked ++ [p.id],
              ev1 ++ [.publishCall p.id, .writeLog ⟨p.id, [postText], none⟩,
                .markProcessed p.id])
          else
            (false, marked,
              ev1 ++ [.publishCall p.id, .writeLog ⟨p.id, [], some env.publishError⟩])
        else
          (true, marked ++ [p.id],
            ev1 ++ [.writeLog ⟨p.id, [], none⟩, .markProcessed p.id])

/-- Whether a `process_paper` run reaches the publish stage (step 6): fetch
succeeded, the paper was not skipped as already processed, extraction
succeeded, and the summarization retry loop succeeded. -/
def reachesPublish (p : Paper) (env : PaperEnv) (marked : List String)
    (force : Bool) : Bool :=
  (env.pdfOnDisk || env.fetchOk) && !(marked.contains p.id && !force)
    && env.extractOk && (runRetry env.summOutcome).1

/-! ## Batch coordinator (`arxiv_downloader.main`) -/

/-- Selection-time environment of a candidate. -/
structure CandidateEnv where
  paperEnv : PaperEnv
  /-- `copy_pdf_if_exists` finds the PDF in a sibling `pdf/` directory. -/
  copyExists : Bool
  /-- The selection-time `download_pdf` call succeeds. -/
  selDownloadOk : Bool

/-- `is_processed(arxiv_id, processed_dir, processed_ids)`: membership in
the preloaded id set, or a marker file in the processed directory. -/
def isProcessed (id : String) (marked processedIds : List String) : Bool :=
  processedIds.contains id || marked.contains id

/-- The selection loop of `arxiv_downloader.main`: walk the search results,
stop at the cap, keep a candidate when it is unprocessed (or forced) and its
PDF can be made locally available (sibling copy, else download); record its
id in `newly_processed_ids` at selection time.  Returns the selected
candidates and the recorded id list. -/
def selectGo (processedIds marked : List String) (force : Bool)
    (maxProcess : Nat) :
    List (Paper × CandidateEnv) → Nat → List (Paper × CandidateEnv) × List String
  | [], _ => ([], [])
  | (p, e) :: rest, cnt =>
    if maxProcess ≤ cnt then ([], [])
    else if !(isProcessed p.id marked processedIds) || force then
      if e.copyExists || e.selDownloadOk then
        let r := selectGo processedIds marked force maxProcess rest (cnt + 1)
        ((p, e) :: r.1, p.id :: r.2)
      else
        selectGo processedIds marked force maxProcess rest cnt
    else
      selectGo processedIds marked force maxProcess rest cnt

/-- After selection the PDF is on disk in the download directory, so the
`download_pdf` call inside `process_paper` finds the existing file. -/
def PaperEnv.onDisk (env : PaperEnv) : PaperEnv :=
  ⟨true, env.fetchOk, env.extractOk, env.summOutcome, env.summaryText,
    env.publishOk, env.publishError⟩

/-- The processing loop of `arxiv_downloader.main` over the selected papers:
`current_skip_twitter = args.skip_twitter or not is_last_paper`.  Returns the
per-paper outcomes, the final marker set, and the concatenated trace. -/
def runBatchGo (force skipTwitter : Bool) :
    List (Paper × CandidateEnv) → List String → List Bool × List String × List Event
  | [], marked => ([], marked, [])
  | (p, e) :: rest, marked =>
    let curSkip := skipTwitter || !rest.isEmpty
    let r := processPaper p e.paperEnv.onDisk marked force curSkip
    let rr := runBatchGo force skipTwitter rest r.2.1
    (r.1 :: rr.1, rr.2.1, r.2.2 ++ rr.2.2)

/-- What one `arxiv_downloader.main` invocation reports and leaves behind. -/
structure DownloaderRun where
  /-- `papers_to_process`. -/
  selected : List Paper
  /-- `newly_processed_ids`, the content of the `--output-processed-ids`
  file (recorded at selection time). -/
  newIds : List String
  /-- `processed_count`, as printed in the final report. -/
  processedCount : Nat
  /-- The `process_paper` outcome of each selected paper, in order. -/
  successes : List Bool
  /-- `twitter_posted`, as printed in the final report. -/
  twitterPosted : Bool
  /-- The marker files present in `processed/` afterwards. -/
  marked : List String
  /-- The concatenated pipeline trace. -/
  trace : List Event

/-- `arxiv_downloader.main`: select (cap applied), exit early when nothing is
selected, process the batch with publish only on the last paper, then compute
`twitter_posted` from the skip flag and report `processed_count`. -/
def downloaderMain (cands : List (Paper × CandidateEnv))
    (processedIds marked : List String) (force skipTwitter : Bool)
    (maxProcess : Nat) : DownloaderRun :=
  let sel := selectGo processedIds marked force maxProcess cands 0
  if sel.1.isEmpty then
    ⟨[], [], 0, [], false, marked, []⟩
  else
    let r := runBatchGo force skipTwitter sel.1 marked
    ⟨sel.1.map Prod.fst, sel.2, sel.2.length, r.1, !skipTwitter, r.2.1, r.2.2⟩

/-! ## Multi-search orchestrator (`run_multiple_searches`) -/

/-- The state of the shared `./dl` path. -/
inductive DlState
  | absent
  | link (target : String)
  | realDir (contents : List String)
deriving DecidableEq

/-- Result of `setup_pdf_directory`: the keyword set's PDF directory, the new
`./dl` state, and the files removed by `shutil.rmtree`. -/
structure FsOutcome where
  pdfDir : String
  dl : DlState
  removed : List String
deriving DecidableEq

/-- `generate_pdf_dir_name(keywords)`. -/
def generatePdfDirName (keywords : List String) (fallbackTime : Nat) : String :=
  if keywords.isEmpty then "./pdf/search_" ++ toString fallbackTime
  else "./pdf/" ++ String.intercalate "_" keywords

/-- `setup_pdf_directory(keywords)`: make the keyword set's PDF directory,
unlink `./dl` if it is a symlink, `shutil.rmtree` it if it is a real
directory, then symlink `./dl` to the PDF directory. -/
def setupPdfDirectory (keywords : List String) (fallbackTime : Nat)
    (dl : DlState) : FsOutcome :=
  let pdfDir := generatePdfDirName keywords fallbackTime
  match dl with
  | .absent => ⟨pdfDir, .link pdfDir, []⟩
  | .link _ => ⟨pdfDir, .link pdfDir, []⟩
  | .realDir contents => ⟨pdfDir, .link pdfDir, contents⟩

/-- Observable actions of the orchestrator, in order. -/
inductive OrchEvent
  | setupDl (pdfDir : String) (removed : List String)
  | runSet (sid : String)
  | logFailure (sid : String)
  | saveProcessedIds (ids : List String)
  | saveTimestamps (wm : List (String × Nat))
deriving DecidableEq

/-- Python dict assignment `timestamps[sid] = {...}` on the watermark map. -/
def wmInsert (wm : List (String × Nat)) (k : String) (v : Nat) :
    List (String × Nat) :=
  (k, v) :: wm.filter (fun kv => kv.1 != k)

/-- Watermark lookup, `timestamps.get(sid)`: the first entry with the key
(the map never holds duplicate keys, since `wmInsert` filters them out). -/
def wmLookup : List (String × Nat) → String → Option Nat
  | [], _ => none
  | kv :: rest, k => if kv.1 == k then some kv.2 else wmLookup rest k

/-- One configured search set together with the external outcomes its run
observes.  `startTime` is `current_timestamp`, captured in `run_search_set`
before the downloader subprocess starts. -/
structure SearchSet where
  keywords : List String
  outputDir : String
  tweetEnabled : Bool
  /-- The candidate list the search collaborator returns for this run. -/
  cands : List (Paper × CandidateEnv)
  startTime : Nat
  /-- The `arxiv_downloader.py` subprocess exits nonzero (modelled as
  failing at startup, before producing output). -/
  downloaderCrashes : Bool
  /-- The `web_generator.py` subprocess exits zero. -/
  webGenOk : Bool
  /-- `run_search_set` raises (modelled as raising at entry, caught by the
  orchestrator's `except` clause). -/
  raisesException : Bool

/-- `search_set_id = '_'.join(keywords)`. -/
def searchSetId (s : SearchSet) : String := String.intercalate "_" s.keywords

/-- What one `run_search_set` call returns and leaves behind. -/
structure SetOutcome where
  success : Bool
  newIds : List String
  wm : List (String × Nat)
  marked : List String
  dl : DlState
  events : List OrchEvent
  dlTrace : List Event

/-- `run_search_set(keywords, output_dir, max_results, tweet_enabled,
timestamps, processed_ids, search_set_id)`: point `./dl` at the set's PDF
directory first, run the downloader (returning early, watermark untouched,
on a nonzero exit), set the watermark for this set to the run-start
timestamp, then run the web generator (its failure makes the run return
failure, after the watermark map was already updated in memory). -/
def runSearchSet (s : SearchSet) (wm : List (String × Nat))
    (processedIds marked : List String) (dl : DlState) : SetOutcome :=
  let fs := setupPdfDirectory s.keywords s.startTime dl
  let ev0 : List OrchEvent := [.setupDl fs.pdfDir fs.removed]
  if s.downloaderCrashes then
    ⟨false, [], wm, marked, fs.dl, ev0, []⟩
  else
    let run := downloaderMain s.cands processedIds marked false (!s.tweetEnabled) 9999
    let wm' := wmInsert wm (searchSetId s) s.startTime
    ⟨s.webGenOk, run.newIds, wm', run.marked, fs.dl, ev0, run.trace⟩

/-- Per-set outcome as seen by the orchestrator loop. -/
inductive SetResult
  | ok
  | failed
  | raised
  | skippedConfig
deriving DecidableEq

/-- The orchestrator's accumulated state. -/
structure OrchState where
  wm : List (String × Nat)
  marked : List String
  dl : DlState
  /-- `all_new_processed_ids`. -/
  allNew : List String
  results : List SetResult
  events : List OrchEvent
  dlTrace : List Event

/-- A search set with nonempty keywords and output directory (`main` skips
the others with a warning, without running them). -/
def validSet (s : SearchSet) : Bool :=
  !s.keywords.isEmpty && !(s.outputDir == "")

/-- The `for i, search_set in enumerate(search_sets)` loop of
`run_multiple_searches.main`: skip misconfigured sets; catch exceptions from
`run_search_set` (log, continue); on a normal return merge the new ids into
`all_new_processed_ids` and log a warning when the run failed; in every case
continue with the next set.  `processedIds` is the set loaded once at start
and not modified during the loop. -/
def orchGo (processedIds : List String) : List SearchSet → OrchState → OrchState
  | [], st => st
  | s :: rest, st =>
    if validSet s = false then
      orchGo processedIds rest
        ⟨st.wm, st.marked, st.dl, st.allNew, st.results ++ [.skippedConfig],
          st.events, st.dlTrace⟩
    else if s.raisesException then
      orchGo processedIds rest
        ⟨st.wm, st.marked, st.dl, st.allNew, st.results ++ [.raised],
          st.events ++ [.runSet (searchSetId s), .logFailure (searchSetId s)],
          st.dlTrace⟩
    else
      let out := runSearchSet s st.wm processedIds st.marked st.dl
      orchGo processedIds rest
        ⟨out.wm, out.marked, out.dl, st.allNew ++ out.newIds,
          st.results ++ [if out.success then .ok else .failed],
          st.events ++ [.runSet (searchSetId s)] ++ out.events
            ++ (if out.success then [] else [.logFailure (searchSetId s)]),
          st.dlTrace ++ out.dlTrace⟩

/-- The outcome of a whole orchestrator pass. -/
structure OrchResult where
  finalState : OrchState
  /-- The content persisted by `save_processed_ids`: the loaded set updated
  with all newly recorded ids (a set, modelled as a list up to membership). -/
  savedIds : List String

/-- `run_multiple_searches.main`: load state, run every search set, then —
only after the loop — persist the merged processed-id set and the updated
watermark map. -/
def orchestratorMain (sets : List SearchSet) (wm₀ : List (String × Nat))
    (processedIds marked₀ : List String) (dl₀ : DlState) : OrchResult :=
  let st := orchGo processedIds sets ⟨wm₀, marked₀, dl₀, [], [], [], []⟩
  let savedIds := processedIds ++ st.allNew
  ⟨⟨st.wm, st.marked, st.dl, st.allNew, st.results,
    st.events ++ [.saveProcessedIds savedIds, .saveTimestamps st.wm],
    st.dlTrace⟩, savedIds⟩

/-! ## Trace observation helpers -/

/-- The ids of the publish calls in a trace. -/
def pubCalls (evs : List Event) : List String :=
  evs.filterMap fun e => match e with | .publishCall i => some i | _ => none

/-- The ids of the fetch (download) calls in a trace. -/
def fetchCalls (evs : List Event) : List String :=
  evs.filterMap fun e => match e with | .fetchCall i => some i | _ => none

/-- The ids of the extraction calls in a trace. -/
def extractCalls (evs : List Event) : List String :=
  evs.filterMap fun e => match e with | .extractCall i => some i | _ => none

/-- The ids of the summarization API calls in a trace. -/
def summCalls (evs : List Event) : List String :=
  evs.filterMap fun e => match e with | .summarizeCall i => some i | _ => none

/-- The log records written in a trace. -/
def logsWritten (evs : List Event) : List TwitterLog :=
  evs.filterMap fun e => match e with | .writeLog r => some r | _ => none

/-- The ids marked processed in a trace. -/
def marksWritten (evs : List Event) : List String :=
  evs.filterMap fun e => match e with | .markProcessed i => some i | _ => none

/-- The search-set ids the orchestrator ran, in order. -/
def runSetIds (evs : List OrchEvent) : List String :=
  evs.filterMap fun e => match e with | .runSet i => some i | _ => none

/-- The persistence events (ledger-id set and watermark map saves). -/
def saveEvents (evs : List OrchEvent) : List OrchEvent :=
  evs.filter fun e => match e with
    | .saveProcessedIds _ => true
    | .saveTimestamps _ => true
    | _ => false

/-- The initial orchestrator state. -/
def initState (wm₀ : List (String × Nat)) (marked₀ : List String)
    (dl₀ : DlState) : OrchState :=
  ⟨wm₀, marked₀, dl₀, [], [], [], []⟩

/-! ## A concrete run whose summarization stage exhausts its retries -/

/-- A candidate paper for the concrete scenario. -/
def c1Paper : Paper := ⟨"2101.00001", "Example"⟩

/-- Its environment: the PDF downloads fine at selection time, extraction
succeeds, every summarization attempt fails (no rate limit), publish would
succeed if it were ever reached. -/
def c1Env : CandidateEnv :=
  ⟨⟨false, true, true, fun _ => .failure false, [], true, "err"⟩, false, true⟩

/-- A single keyword set containing only that paper; the subprocesses
themselves run fine. -/
def c1Set : SearchSet :=
  ⟨["quantum", "crypto"], "./html/qc", true, [(c1Paper, c1Env)], 1000,
    false, true, false⟩

/-! ## Helper lemmas -/

/-- Enumeration of the retry loop over the three possible attempts. -/
theorem runRetry_eq (o : Nat → ApiResult) :
    runRetry o =
      if (o 0).isFail = false then (true, [], 1)
      else if (o 1).isFail = false then (true, [2], 2)
      else if (o 2).isFail = false then (true, [2, 4], 3)
      else (false, [2, 4], 3) := by
  unfold runRetry maxRetries initialBackoff
  rcases h0 : o 0 with _ | b0 <;> rcases h1 : o 1 with _ | b1 <;>
    rcases h2 : o 2 with _ | b2 <;>
      simp [retryGo, h0, h1, h2, ApiResult.isFail]

/-- Every event of the retry stage is an API call or a sleep. -/
theorem mem_mkSummEvents (id : String) (sl : List Nat) :
    ∀ e ∈ mkSummEvents id sl, e = .summarizeCall id ∨ ∃ b, e = .sleep b := by
  induction sl with
  | nil => intro e he; simp [mkSummEvents] at he; exact Or.inl he
  | cons b rest ih =>
    intro e he
    simp only [mkSummEvents, List.mem_cons] at he
    rcases he with h | h | h
    · exact Or.inl h
    · exact Or.inr ⟨b, h⟩
    · exact ih e h

/-- The retry stage makes no publish calls. -/
theorem pubCalls_mkSummEvents (id : String) (sl : List Nat) :
    pubCalls (mkSummEvents id sl) = [] := by
  rw [pubCalls, List.filterMap_eq_nil_iff]
  intro e he
  rcases mem_mkSummEvents id sl e he with h | ⟨b, h⟩ <;> subst h <;> rfl

/-- The retry stage makes no fetch calls. -/
theorem fetchCalls_mkSummEvents (id : String) (sl : List Nat) :
    fetchCalls (mkSummEvents id sl) = [] := by
  rw [fetchCalls, List.filterMap_eq_nil_iff]
  intro e he
  rcases mem_mkSummEvents id sl e he with h | ⟨b, h⟩ <;> subst h <;> rfl

/-- The retry stage makes no extraction calls. -/
theorem extractCalls_mkSummEvents (id : String) (sl : List Nat) :
    extractCalls (mkSummEvents id sl) = [] := by
  rw [extractCalls, List.filterMap_eq_nil_iff]
  intro e he
  rcases mem_mkSummEvents id sl e he with h | ⟨b, h⟩ <;> subst h <;> rfl

/-- The retry stage makes one API call plus one per sleep. -/
theorem summCalls_mkSummEvents (id : String) (sl : List Nat) :
    summCalls (mkSummEvents id sl) = List.replicate (sl.length + 1) id := by
  induction sl with
  | nil => rfl
  | cons b rest ih =>
    simp only [mkSummEvents, summCalls, List.filterMap_cons] at ih ⊢
    simpa [List.replicate_succ] using ih

/-- Length of the reference URL. -/
theorem arxivUrl_length (id : List Char) : (arxivUrl id).length = 22 + id.length := by
  rw [arxivUrl, List.length_append,
    show "https://arxiv.org/abs/".data.length = 22 from by decide]

/-- Length of the greeting-prefixed, possibly truncated post text. -/
theorem makePostText_length (summary : List Char) :
    (makePostText summary).length =
      if 130 < (greeting ++ summary).length then
        min 277 (greeting ++ summary).length + 3
      else (greeting ++ summary).length := by
  unfold makePostText shortFormThreshold
  by_cases h : 130 < (greeting ++ summary).length
  · rw [if_pos h, if_pos h, List.length_append, List.length_take,
      show "...".data.length = 3 from by decide]
  · rw [if_neg h, if_neg h]

@[simp] theorem pubCalls_nil : pubCalls [] = [] := rfl

@[simp] theorem pubCalls_cons (e : Event) (l : List Event) :
    pubCalls (e :: l) =
      (match e with | .publishCall i => [i] | _ => []) ++ pubCalls l := by
  cases e <;> rfl

@[simp] theorem pubCalls_append (l₁ l₂ : List Event) :
    pubCalls (l₁ ++ l₂) = pubCalls l₁ ++ pubCalls l₂ := by
  simp [pubCalls]

@[simp] theorem fetchCalls_nil : fetchCalls [] = [] := rfl

@[simp] theorem fetchCalls_cons (e : Event) (l : List Event) :
    fetchCalls (e :: l) =
      (match e with | .fetchCall i => [i] | _ => []) ++ fetchCalls l := by
  cases e <;> rfl

@[simp] theorem fetchCalls_append (l₁ l₂ : List Event) :
    fetchCalls (l₁ ++ l₂) = fetchCalls l₁ ++ fetchCalls l₂ := by
  simp [fetchCalls]

@[simp] theorem extractCalls_nil : extractCalls [] = [] := rfl

@[simp] theorem extractCalls_cons (e : Event) (l : List Event) :
    extractCalls (e :: l) =
      (match e with | .extractCall i => [i] | _ => []) ++ extractCalls l := by
  cases e <;> rfl

@[simp] theorem extractCalls_append (l₁ l₂ : List Event) :
    extractCalls (l₁ ++ l₂) = extractCalls l₁ ++ extractCalls l₂ := by
  simp [extractCalls]

@[simp] theorem summCalls_nil : summCalls [] = [] := rfl

@[simp] theorem summCalls_cons (e : Event) (l : List Event) :
    summCalls (e :: l) =
      (match e with | .summarizeCall i => [i] | _ => []) ++ summCalls l := by
  cases e <;> rfl

@[simp] theorem summCalls_append (l₁ l₂ : List Event) :
    summCalls (l₁ ++ l₂) = summCalls l₁ ++ summCalls l₂ := by
  simp [summCalls]

@[simp] theorem logsWritten_nil : logsWritten [] = [] := rfl

@[simp] theorem logsWritten_cons (e : Event) (l : List Event) :
    logsWritten (e :: l) =
      (match e with | .writeLog r => [r] | _ => []) ++ logsWritten l := by
  cases e <;> rfl

@[simp] theorem logsWritten_append (l₁ l₂ : List Event) :
    logsWritten (l₁ ++ l₂) = logsWritten l₁ ++ logsWritten l₂ := by
  simp [logsWritten]

@[simp] theorem marksWritten_nil : marksWritten [] = [] := rfl

@[simp] theorem marksWritten_cons (e : Event) (l : List Event) :
    marksWritten (e :: l) =
      (match e with | .markProcessed i => [i] | _ => []) ++ marksWritten l := by
  cases e <;> rfl

@[simp] theorem marksWritten_append (l₁ l₂ : List Event) :
    marksWritten (l₁ ++ l₂) = marksWritten l₁ ++ marksWritten l₂ := by
  simp [marksWritten]

@[simp] theorem logsWritten_mkSummEvents (id : String) (sl : List Nat) :
    logsWritten (mkSummEvents id sl) = [] := by
  rw [logsWritten, List.filterMap_eq_nil_iff]
  intro e he
  rcases mem_mkSummEvents id sl e he with h | ⟨b, h⟩ <;> subst h <;> rfl

@[simp] theorem marksWritten_mkSummEvents (id : String) (sl : List Nat) :
    marksWritten (mkSummEvents id sl) = [] := by
  rw [marksWritten, List.filterMap_eq_nil_iff]
  intro e he
  rcases mem_mkSummEvents id sl e he with h | ⟨b, h⟩ <;> subst h <;> rfl

attribute [simp] pubCalls_mkSummEvents fetchCalls_mkSummEvents
  extractCalls_mkSummEvents summCalls_mkSummEvents

/-- Branch lemma: the fetch stage fails. -/
theorem processPaper_fetch_fail (p : Paper) (env : PaperEnv) (marked : List String)
    (force skipT : Bool) (h : (env.pdfOnDisk || env.fetchOk) = false) :
    processPaper p env marked force skipT = (false, marked, [.fetchCall p.id]) := by
  simp [processPaper, h]

/-- Branch lemma: the paper is already marked processed and no force flag is
set, so the run stops at the skip check with a success result. -/
theorem processPaper_skip (p : Paper) (env : PaperEnv) (marked : List String)
    (skipT : Bool) (h1 : (env.pdfOnDisk || env.fetchOk) = true)
    (h2 : p.id ∈ marked) :
    processPaper p env marked false skipT =
      (true, marked, [.fetchCall p.id, .skipCheck p.id true]) := by
  simp [processPaper, h1, h2]

/-- Branch lemma: extraction fails. -/
theorem processPaper_extract_fail (p : Paper) (env : PaperEnv) (marked : List String)
    (force skipT : Bool) (h1 : (env.pdfOnDisk || env.fetchOk) = true)
    (h2 : p.id ∈ marked → force = true)
    (h3 : env.extractOk = false) :
    processPaper p env marked force skipT =
      (false, marked,
        [.fetchCall p.id, .skipCheck p.id (marked.contains p.id), .extractCall p.id]) := by
  simp [processPaper, h1, h3]
  exact h2

/-- Branch lemma: the summarization retry loop exhausts its attempts. -/
theorem processPaper_summ_fail (p : Paper) (env : PaperEnv) (marked : List String)
    (force skipT : Bool) (h1 : (env.pdfOnDisk || env.fetchOk) = true)
    (h2 : p.id ∈ marked → force = true)
    (h3 : env.extractOk = true)
    (h4 : (runRetry env.summOutcome).1 = false) :
    processPaper p env marked force skipT =
      (false, marked,
        .fetchCall p.id :: .skipCheck p.id (marked.contains p.id) :: .extractCall p.id ::
          mkSummEvents p.id (runRetry env.summOutcome).2.1) := by
  simp [processPaper, h1, h3, h4]
  exact h2

/-- Branch lemma: publish attempted and succeeded. -/
theorem processPaper_publish_ok (p : Paper) (env : PaperEnv) (marked : List String)
    (force : Bool) (h1 : (env.pdfOnDisk || env.fetchOk) = true)
    (h2 : p.id ∈ marked → force = true)
    (h3 : env.extractOk = true)
    (h4 : (runRetry env.summOutcome).1 = true)
    (h5 : env.publishOk = true) :
    processPaper p env marked force false =
      (true, marked ++ [p.id],
        .fetchCall p.id :: .skipCheck p.id (marked.contains p.id) :: .extractCall p.id ::
          (mkSummEvents p.id (runRetry env.summOutcome).2.1 ++
            [.publishCall p.id,
             .writeLog ⟨p.id, [finalPost env.summaryText p.id.data], none⟩,
             .markProcessed p.id])) := by
  simp [processPaper, h1, h3, h4, h5]
  exact h2

/-- Branch lemma: publish attempted and failed. -/
theorem processPaper_publish_fail (p : Paper) (env : PaperEnv) (marked : List String)
    (force : Bool) (h1 : (env.pdfOnDisk || env.fetchOk) = true)
    (h2 : p.id ∈ marked → force = true)
    (h3 : env.extractOk = true)
    (h4 : (runRetry env.summOutcome).1 = true)
    (h5 : env.publishOk = false) :
    processPaper p env marked force false =
      (false, marked,
        .fetchCall p.id :: .skipCheck p.id (marked.contains p.id) :: .extractCall p.id ::
          (mkSummEvents p.id (runRetry env.summOutcome).2.1 ++
            [.publishCall p.id, .writeLog ⟨p.id, [], some env.publishError⟩])) := by
  simp [processPaper, h1, h3, h4, h5]
  exact h2

/-- Branch lemma: publish explicitly skipped, pipeline completes. -/
theorem processPaper_skip_publish (p : Paper) (env : PaperEnv) (marked : List String)
    (force : Bool) (h1 : (env.pdfOnDisk || env.fetchOk) = true)
    (h2 : p.id ∈ marked → force = true)
    (h3 : env.extractOk = true)
    (h4 : (runRetry env.summOutcome).1 = true) :
    processPaper p env marked force true =
      (true, marked ++ [p.id],
        .fetchCall p.id :: .skipCheck p.id (marked.contains p.id) :: .extractCall p.id ::
          (mkSummEvents p.id (runRetry env.summOutcome).2.1 ++
            [.writeLog ⟨p.id, [], none⟩, .markProcessed p.id])) := by
  simp [processPaper, h1, h3, h4]
  exact h2

/-! ## Claims -/

/-- Once fetch succeeds and the skip check passes (or is bypassed by the
force flag), the trace continues with the extraction call. -/
theorem processPaper_trace_shape (p : Paper) (env : PaperEnv) (marked : List String)
    (force skipT : Bool) (h1 : (env.pdfOnDisk || env.fetchOk) = true)
    (h2 : p.id ∈ marked → force = true) :
    ∃ tl, (processPaper p env marked force skipT).2.2 =
      .fetchCall p.id :: .skipCheck p.id (marked.contains p.id) :: .extractCall p.id :: tl := by
  by_cases he : env.extractOk = false
  · exact ⟨[], by rw [processPaper_extract_fail p env marked force skipT h1 h2 he]⟩
  · have he' : env.extractOk = true := by simpa using he
    cases hr : (runRetry env.summOutcome).1 with
    | false =>
      exact ⟨_, by rw [processPaper_summ_fail p env marked force skipT h1 h2 he' hr]⟩
    | true =>
      cases skipT with
      | true => exact ⟨_, by rw [processPaper_skip_publish p env marked force h1 h2 he' hr]⟩
      | false =>
        cases hp : env.publishOk with
        | true => exact ⟨_, by rw [processPaper_publish_ok p env marked force h1 h2 he' hr hp]⟩
        | false => exact ⟨_, by rw [processPaper_publish_fail p env marked force h1 h2 he' hr hp]⟩


set_option maxRecDepth 8192 in
/-- C2 counterexample: with a 230-character summary and the 10-character id
`2504.12345`, the greeting-prefixed summary has length 244, so the claimed
condition `244 + 2 + 32 ≤ 280` holds — yet the code omits the URL, because
`post_thread` measures the ellipsis-truncated post text (length 247), and
`247 + 32 + 2 > 280`.  The final text is the truncated text without the
URL. -/
theorem finalPost_claim_cex :
    ((greeting ++ List.replicate 230 'a').length + 2
        + (arxivUrl "2504.12345".data).length ≤ 280) ∧
    finalPost (List.replicate 230 'a') "2504.12345".data
      = makePostText (List.replicate 230 'a') ∧
    finalPost (List.replicate 230 'a') "2504.12345".data
      ≠ makePostText (List.replicate 230 'a') ++ "\n\n".data
          ++ arxivUrl "2504.12345".data := by
  refine ⟨by decide, by decide, by decide⟩

/-- C2 (amended): the final post text includes the reference URL iff the
length of the **truncated** greeting-prefixed summary plus 2 plus the URL
length is at most 280, where the truncated length is
`min L 277 + 3` when the greeting-prefixed summary length `L` exceeds the
short-form threshold 130 and `L` otherwise; below the threshold the text is
exactly the greeting-prefixed summary, and the URL is omitted with the text
left unchanged whenever the bound fails. -/
theorem finalPost_url_condition (summary id : List Char) :
    ((makePostText summary).length =
      if 130 < (greeting ++ summary).length then
        min 277 (greeting ++ summary).length + 3
      else (greeting ++ summary).length) ∧
    ((greeting ++ summary).length ≤ 130 → makePostText summary = greeting ++ summary) ∧
    ((makePostText summary).length + (22 + id.length) + 2 ≤ 280 →
      finalPost summary id = makePostText summary ++ "\n\n".data ++ arxivUrl id) ∧
    (280 < (makePostText summary).length + (22 + id.length) + 2 →
      finalPost summary id = makePostText summary) := by
  refine ⟨makePostText_length summary, ?_, ?_, ?_⟩
  · intro h
    unfold makePostText shortFormThreshold
    rw [if_neg (Nat.not_lt.mpr h)]
  · intro h
    unfold finalPost appendUrl
    rw [arxivUrl_length, if_pos h]
  · intro h
    unfold finalPost appendUrl
    rw [arxivUrl_length, if_neg (Nat.not_le.mpr h)]

/-- Witness for the C2 amended theorem at a concrete short summary. -/
theorem finalPost_url_condition_wit :
    finalPost (List.replicate 10 'a') "1234.5".data
      = makePostText (List.replicate 10 'a') ++ "\n\n".data ++ arxivUrl "1234.5".data ∧
    makePostText (List.replicate 10 'a') = greeting ++ List.replicate 10 'a' := by
  refine ⟨(finalPost_url_condition (List.replicate 10 'a') "1234.5".data).2.2.1 (by decide),
    (finalPost_url_condition (List.replicate 10 'a') "1234.5".data).2.1 (by decide)⟩

/-- The marker set after a `process_paper` run is either unchanged or has
exactly the paper's own id appended. -/
theorem processPaper_marked_cases (p : Paper) (env : PaperEnv) (marked : List String)
    (force skipT : Bool) :
    (processPaper p env marked force skipT).2.1 = marked ∨
    (processPaper p env marked force skipT).2.1 = marked ++ [p.id] := by
  unfold processPaper
  split_ifs <;> simp <;> split_ifs <;> simp

/-- A `process_paper` run with the publish-skip flag set makes no publish
call. -/
theorem pubCalls_processPaper_skipT (p : Paper) (env : PaperEnv)
    (marked : List String) (force : Bool) :
    pubCalls (processPaper p env marked force true).2.2 = [] := by
  cases h1 : (env.pdfOnDisk || env.fetchOk) with
  | false =>
    rw [processPaper_fetch_fail p env marked force true h1]
    simp
  | true =>
    by_cases hcond : p.id ∈ marked ∧ force = false
    · rcases hcond with ⟨hm, hf⟩
      subst hf
      rw [processPaper_skip p env marked true h1 hm]
      simp
    · have h2 : p.id ∈ marked → force = true := by
        intro hm
        by_contra hf
        exact hcond ⟨hm, by simpa using hf⟩
      by_cases he : env.extractOk = false
      · rw [processPaper_extract_fail p env marked force true h1 h2 he]
        simp
      · have he' : env.extractOk = true := by simpa using he
        cases hr : (runRetry env.summOutcome).1 with
        | false =>
          rw [processPaper_summ_fail p env marked force true h1 h2 he' hr]
          simp
        | true =>
          rw [processPaper_skip_publish p env marked force h1 h2 he' hr]
          simp

/-- A `process_paper` run with publish requested makes exactly one publish
call when it reaches the publish stage, and none otherwise. -/
theorem pubCalls_processPaper_pub (p : Paper) (env : PaperEnv)
    (marked : List String) (force : Bool) :
    pubCalls (processPaper p env marked force false).2.2 =
      (if reachesPublish p env marked force = true then [p.id] else []) := by
  cases h1 : (env.pdfOnDisk || env.fetchOk) with
  | false =>
    rw [processPaper_fetch_fail p env marked force false h1]
    simp [reachesPublish, h1]
  | true =>
    by_cases hcond : p.id ∈ marked ∧ force = false
    · rcases hcond with ⟨hm, hf⟩
      subst hf
      rw [processPaper_skip p env marked false h1 hm]
      simp [reachesPublish, hm]
    · have h2 : p.id ∈ marked → force = true := by
        intro hm
        by_contra hf
        exact hcond ⟨hm, by simpa using hf⟩
      have hnb : (marked.contains p.id && !force) = false := by
        by_cases hm : p.id ∈ marked
        · simp [h2 hm]
        · simp [hm]
      by_cases he : env.extractOk = false
      · rw [processPaper_extract_fail p env marked force false h1 h2 he]
        simp [reachesPublish, he]
      · have he' : env.extractOk = true := by simpa using he
        cases hr : (runRetry env.summOutcome).1 with
        | false =>
          rw [processPaper_summ_fail p env marked force false h1 h2 he' hr]
          simp [reachesPublish, hr]
        | true =>
          have hd : p.id ∉ marked ∨ force = true := by
            by_cases hm : p.id ∈ marked
            · exact Or.inr (h2 hm)
            · exact Or.inl hm
          cases hp : env.publishOk with
          | true =>
            rw [processPaper_publish_ok p env marked force h1 h2 he' hr hp]
            simp [reachesPublish, h1, hnb, he', hr, hd]
          | false =>
            rw [processPaper_publish_fail p env marked force h1 h2 he' hr hp]
            simp [reachesPublish, h1, hnb, he', hr, hd]

/-- A list with an appended element is never empty. -/
theorem isEmpty_append_singleton {α : Type} (l : List α) (a : α) :
    (l ++ [a]).isEmpty = false := by
  cases l <;> rfl

/-- With the global publish-skip flag set, the whole batch makes no publish
call. -/
theorem runBatchGo_skip_pub (force : Bool) :
    ∀ (sel : List (Paper × CandidateEnv)) (marked : List String),
      pubCalls (runBatchGo force true sel marked).2.2 = [] := by
  intro sel
  induction sel with
  | nil => intro marked; rfl
  | cons pe rest ih =>
    intro marked
    obtain ⟨p, ce⟩ := pe
    simp [runBatchGo, pubCalls_processPaper_skipT, ih]

/-- With publish enabled, all publish calls of a batch come from its last
paper: they are `[last.id]` when that paper's run (against the marker set
`m'` accumulated from the earlier papers) reaches the publish stage, and
none otherwise. -/
theorem runBatchGo_last_pub (force : Bool) :
    ∀ (front : List (Paper × CandidateEnv)) (pl : Paper) (el : CandidateEnv)
      (marked : List String),
      ∃ m', (∀ x ∈ m', x ∈ marked ∨ x ∈ front.map (fun pe => pe.1.id)) ∧
        pubCalls (runBatchGo force false (front ++ [(pl, el)]) marked).2.2 =
          (if reachesPublish pl el.paperEnv.onDisk m' force = true then [pl.id]
           else []) := by
  intro front
  induction front with
  | nil =>
    intro pl el marked
    refine ⟨marked, fun x hx => Or.inl hx, ?_⟩
    simp [runBatchGo, pubCalls_processPaper_pub]
  | cons pe rest ih =>
    intro pl el marked
    obtain ⟨q, ce⟩ := pe
    obtain ⟨m', hsub, hpub⟩ :=
      ih pl el (processPaper q ce.paperEnv.onDisk marked force true).2.1
    refine ⟨m', ?_, ?_⟩
    · intro x hx
      rcases hsub x hx with hx' | hx'
      · rcases processPaper_marked_cases q ce.paperEnv.onDisk marked force true with
          hc | hc
        · rw [hc] at hx'
          exact Or.inl hx'
        · rw [hc] at hx'
          rcases List.mem_append.1 hx' with h | h
          · exact Or.inl h
          · right
            simp only [List.mem_singleton] at h
            simp [h]
      · right
        simp only [List.map_cons, List.mem_cons]
        exact Or.inr hx'
    · simp only [List.cons_append, runBatchGo, List.append_eq,
        isEmpty_append_singleton, Bool.not_false, Bool.or_true, pubCalls_append]
      rw [pubCalls_processPaper_skipT, hpub]
      simp

/-- C8: in `process_paper` the already-processed skip check runs after the
fetch stage succeeds and before text extraction; a fetch failure aborts the
paper before the skip check (the trace is the single fetch event); when the
paper is already marked and no force flag is set the run stops right after
the skip check, returning success; and with the force flag set (or the paper
unmarked) processing continues into extraction. -/
theorem skip_check_after_fetch :
    ∀ (p : Paper) (env : PaperEnv) (marked : List String) (force skipT : Bool),
      (env.pdfOnDisk = false → env.fetchOk = false →
        (processPaper p env marked force skipT).2.2 = [.fetchCall p.id]) ∧
      ((env.pdfOnDisk || env.fetchOk) = true → ∃ tl,
        (processPaper p env marked force skipT).2.2 =
          .fetchCall p.id :: .skipCheck p.id (marked.contains p.id) :: tl) ∧
      ((env.pdfOnDisk || env.fetchOk) = true → p.id ∈ marked → force = false →
        processPaper p env marked force skipT =
          (true, marked, [.fetchCall p.id, .skipCheck p.id true])) ∧
      ((env.pdfOnDisk || env.fetchOk) = true → (p.id ∈ marked → force = true) →
        Event.extractCall p.id ∈ (processPaper p env marked force skipT).2.2) := by
  intro p env marked force skipT
  refine ⟨?_, ?_, ?_, ?_⟩
  · intro hd hf
    rw [processPaper_fetch_fail p env marked force skipT (by simp [hd, hf])]
  · intro h1
    by_cases hcond : p.id ∈ marked ∧ force = false
    · rcases hcond with ⟨hm, hf⟩
      subst hf
      refine ⟨[], ?_⟩
      rw [processPaper_skip p env marked skipT h1 hm]
      have hc : marked.contains p.id = true := by simp [hm]
      rw [hc]
    · have h2 : p.id ∈ marked → force = true := by
        intro hm
        by_contra hf
        exact hcond ⟨hm, by simpa using hf⟩
      obtain ⟨tl, htl⟩ := processPaper_trace_shape p env marked force skipT h1 h2
      exact ⟨.extractCall p.id :: tl, htl⟩
  · intro h1 hm hf
    subst hf
    exact processPaper_skip p env marked skipT h1 hm
  · intro h1 h2
    obtain ⟨tl, htl⟩ := processPaper_trace_shape p env marked force skipT h1 h2
    rw [htl]
    simp

/-- Witness for C8 at concrete inputs: a paper whose download fails is
aborted with a fetch-only trace, and an already-marked paper stops at the
skip check with a success result. -/
theorem skip_check_after_fetch_wit :
    (processPaper ⟨"2101.1", "t"⟩
        ⟨false, false, true, fun _ => .success, [], true, "e"⟩ [] false false).2.2
      = [.fetchCall "2101.1"] ∧
    processPaper ⟨"2101.1", "t"⟩
        ⟨true, true, true, fun _ => .success, [], true, "e"⟩ ["2101.1"] false false
      = (true, ["2101.1"], [.fetchCall "2101.1", .skipCheck "2101.1" true]) :=
  ⟨(skip_check_after_fetch ⟨"2101.1", "t"⟩
      ⟨false, false, true, fun _ => .success, [], true, "e"⟩ [] false false).1 rfl rfl,
   (skip_check_after_fetch ⟨"2101.1", "t"⟩
      ⟨true, true, true, fun _ => .success, [], true, "e"⟩ ["2101.1"] false false).2.2.1
      rfl (by simp) rfl⟩

/-- C3: when the publish call is attempted and fails, `process_paper`
returns failure for the paper, its identifier is not marked in the ledger
(the marker set is unchanged), and a failure log record carrying the error
text (with an empty posted-units list) is still written for the archive
renderer. -/
theorem publish_failure_aborts_with_log :
    ∀ (p : Paper) (env : PaperEnv) (marked : List String) (force : Bool),
      (env.pdfOnDisk || env.fetchOk) = true →
      (p.id ∈ marked → force = true) →
      env.extractOk = true →
      (runRetry env.summOutcome).1 = true →
      env.publishOk = false →
      (processPaper p env marked force false).1 = false ∧
      (processPaper p env marked force false).2.1 = marked ∧
      TwitterLog.mk p.id [] (some env.publishError)
        ∈ logsWritten (processPaper p env marked force false).2.2 := by
  intro p env marked force h1 h2 h3 h4 h5
  rw [processPaper_publish_fail p env marked force h1 h2 h3 h4 h5]
  refine ⟨rfl, rfl, ?_⟩
  simp

/-- Witness for C3 at a concrete paper whose publish call fails. -/
theorem publish_failure_aborts_with_log_wit :
    (processPaper ⟨"2101.2", "t"⟩
        ⟨true, true, true, fun _ => .success, [], false, "boom"⟩ [] false false).1 = false ∧
    (processPaper ⟨"2101.2", "t"⟩
        ⟨true, true, true, fun _ => .success, [], false, "boom"⟩ [] false false).2.1 = [] ∧
    TwitterLog.mk "2101.2" [] (some "boom")
      ∈ logsWritten (processPaper ⟨"2101.2", "t"⟩
          ⟨true, true, true, fun _ => .success, [], false, "boom"⟩ [] false false).2.2 :=
  publish_failure_aborts_with_log ⟨"2101.2", "t"⟩
    ⟨true, true, true, fun _ => .success, [], false, "boom"⟩ [] false
    rfl (by simp) rfl rfl rfl

/-- C5: the summarization call is attempted at most 3 times (and at least
once); the backoff sleeps are exactly the first `attempts - 1` entries of
[2, 4], so the delay starts at 2 and doubles after each failed attempt; the
policy depends only on whether each attempt failed, not on the rate-limit
signal it carries; when all three attempts fail the loop reports failure
with sleeps [2, 4], and `process_paper` turns this into a paper-level
failure after exactly 3 API calls; and no other stage retries — any single
`process_paper` run performs at most one fetch call, one extraction call and
one publish call. -/
theorem summarization_retry_policy :
    (∀ o : Nat → ApiResult, 1 ≤ (runRetry o).2.2 ∧ (runRetry o).2.2 ≤ maxRetries) ∧
    (∀ o : Nat → ApiResult,
      (runRetry o).2.1 = List.take ((runRetry o).2.2 - 1) [2, 4]) ∧
    (∀ o : Nat → ApiResult, (o 0).isFail = true → (o 1).isFail = true →
      (o 2).isFail = true → runRetry o = (false, [2, 4], 3)) ∧
    (∀ o₁ o₂ : Nat → ApiResult, (∀ i, (o₁ i).isFail = (o₂ i).isFail) →
      runRetry o₁ = runRetry o₂) ∧
    (∀ (p : Paper) (env : PaperEnv) (marked : List String) (force skipT : Bool),
      (env.pdfOnDisk || env.fetchOk) = true →
      (p.id ∈ marked → force = true) →
      env.extractOk = true →
      (∀ i, (env.summOutcome i).isFail = true) →
      (processPaper p env marked force skipT).1 = false ∧
      (summCalls (processPaper p env marked force skipT).2.2).length = 3) ∧
    (∀ (p : Paper) (env : PaperEnv) (marked : List String) (force skipT : Bool),
      (fetchCalls (processPaper p env marked force skipT).2.2).length ≤ 1 ∧
      (extractCalls (processPaper p env marked force skipT).2.2).length ≤ 1 ∧
      (pubCalls (processPaper p env marked force skipT).2.2).length ≤ 1) := by
  refine ⟨?_, ?_, ?_, ?_, ?_, ?_⟩
  · intro o
    rw [runRetry_eq o, maxRetries]
    split_ifs <;> simp
  · intro o
    rw [runRetry_eq o]
    split_ifs <;> rfl
  · intro o h0 h1 h2
    rw [runRetry_eq o]
    simp [h0, h1, h2]
  · intro o₁ o₂ h
    rw [runRetry_eq o₁, runRetry_eq o₂, h 0, h 1, h 2]
  · intro p env marked force skipT h1 h2 h3 hall
    have hr : runRetry env.summOutcome = (false, [2, 4], 3) := by
      rw [runRetry_eq]
      simp [hall 0, hall 1, hall 2]
    rw [processPaper_summ_fail p env marked force skipT h1 h2 h3 (by rw [hr])]
    refine ⟨rfl, ?_⟩
    simp [hr, mkSummEvents]
  · intro p env marked force skipT
    cases h1 : (env.pdfOnDisk || env.fetchOk) with
    | false =>
      rw [processPaper_fetch_fail p env marked force skipT h1]
      simp
    | true =>
      have h1' := h1
      by_cases hcond : p.id ∈ marked ∧ force = false
      · rcases hcond with ⟨hm, hf⟩
        subst hf
        rw [processPaper_skip p env marked skipT h1' hm]
        simp
      · have h2 : p.id ∈ marked → force = true := by
          intro hm
          by_contra hf
          exact hcond ⟨hm, by simpa using hf⟩
        by_cases he : env.extractOk = false
        · rw [processPaper_extract_fail p env marked force skipT h1' h2 he]
          simp
        · have he' : env.extractOk = true := by simpa using he
          cases hr : (runRetry env.summOutcome).1 with
          | false =>
            rw [processPaper_summ_fail p env marked force skipT h1' h2 he' hr]
            simp
          | true =>
            cases skipT with
            | true =>
              rw [processPaper_skip_publish p env marked force h1' h2 he' hr]
              simp
            | false =>
              cases hp : env.publishOk with
              | true =>
                rw [processPaper_publish_ok p env marked force h1' h2 he' hr hp]
                simp
              | false =>
                rw [processPaper_publish_fail p env marked force h1' h2 he' hr hp]
                simp

/-- Witness for C5: the all-failures retry run at a concrete outcome
sequence, and the single-call bounds at a concrete paper. -/
theorem summarization_retry_policy_wit :
    runRetry (fun _ => .failure true) = (false, [2, 4], 3) ∧
    (processPaper ⟨"2101.3", "t"⟩
        ⟨true, true, true, fun _ => .failure false, [], true, "e"⟩ [] false false).1 = false ∧
    (pubCalls (processPaper ⟨"2101.3", "t"⟩
        ⟨true, true, true, fun _ => .failure false, [], true, "e"⟩ [] false false).2.2).length ≤ 1 :=
  ⟨summarization_retry_policy.2.2.1 (fun _ => .failure true) rfl rfl rfl,
   (summarization_retry_policy.2.2.2.2.1 ⟨"2101.3", "t"⟩
      ⟨true, true, true, fun _ => .failure false, [], true, "e"⟩ [] false false
      rfl (by simp) rfl (fun _ => rfl)).1,
   (summarization_retry_policy.2.2.2.2.2 ⟨"2101.3", "t"⟩
      ⟨true, true, true, fun _ => .failure false, [], true, "e"⟩ [] false false).2.2⟩

/-- C4: with the global publish-skip flag set no paper in the batch makes a
publish call; with publish enabled every publish call of the batch belongs
to the last selected paper (all earlier papers run with publish explicitly
skipped), and under the natural side conditions — the last paper is not
already marked, no earlier selected paper shares its id, and its extraction
and summarization succeed — exactly one publish call happens, for the last
paper; and a paper run with publish skipped that completes its pipeline
still gets a log record with an empty posted-units list and a success
outcome. -/
theorem batch_publish_policy :
    (∀ (force : Bool) (sel : List (Paper × CandidateEnv)) (marked : List String),
      pubCalls (runBatchGo force true sel marked).2.2 = []) ∧
    (∀ (force : Bool) (front : List (Paper × CandidateEnv)) (pl : Paper)
      (el : CandidateEnv) (marked : List String),
      ∃ m', (∀ x ∈ m', x ∈ marked ∨ x ∈ front.map (fun pe => pe.1.id)) ∧
        pubCalls (runBatchGo force false (front ++ [(pl, el)]) marked).2.2 =
          (if reachesPublish pl el.paperEnv.onDisk m' force = true then [pl.id]
           else [])) ∧
    (∀ (force : Bool) (front : List (Paper × CandidateEnv)) (pl : Paper)
      (el : CandidateEnv) (marked : List String),
      pl.id ∉ marked → (∀ pe ∈ front, pe.1.id ≠ pl.id) →
      el.paperEnv.extractOk = true →
      (runRetry el.paperEnv.summOutcome).1 = true →
      pubCalls (runBatchGo force false (front ++ [(pl, el)]) marked).2.2
        = [pl.id]) ∧
    (∀ (p : Paper) (env : PaperEnv) (marked : List String) (force : Bool),
      (env.pdfOnDisk || env.fetchOk) = true →
      (p.id ∈ marked → force = true) →
      env.extractOk = true → (runRetry env.summOutcome).1 = true →
      (processPaper p env marked force true).1 = true ∧
      TwitterLog.mk p.id [] none
        ∈ logsWritten (processPaper p env marked force true).2.2) := by
  refine ⟨runBatchGo_skip_pub, runBatchGo_last_pub, ?_, ?_⟩
  · intro force front pl el marked hnotm hfr hex hret
    obtain ⟨m', hsub, hpub⟩ := runBatchGo_last_pub force front pl el marked
    rw [hpub, if_pos]
    have hc : pl.id ∉ m' := by
      intro hmem
      rcases hsub pl.id hmem with h | h
      · exact hnotm h
      · simp only [List.mem_map] at h
        obtain ⟨pe, hpe, hid⟩ := h
        exact hfr pe hpe hid
    simp [reachesPublish, PaperEnv.onDisk, hc, hex, hret]
  · intro p env marked force h1 h2 h3 h4
    rw [processPaper_skip_publish p env marked force h1 h2 h3 h4]
    exact ⟨rfl, by simp⟩

/-- Witness for C4 at a concrete two-paper batch with publish enabled: the
only publish call is for the second (last) paper, and the first paper's
skip run writes an empty-posted-units log record. -/
theorem batch_publish_policy_wit :
    pubCalls (runBatchGo false false
      ([(⟨"a1", "t1"⟩, ⟨⟨false, true, true, fun _ => .success, [], true, "e"⟩, false, true⟩)]
        ++ [(⟨"a2", "t2"⟩, ⟨⟨false, true, true, fun _ => .success, [], true, "e"⟩, false, true⟩)])
      []).2.2 = ["a2"] ∧
    TwitterLog.mk "a1" [] none
      ∈ logsWritten (processPaper ⟨"a1", "t1"⟩
          ⟨true, true, true, fun _ => .success, [], true, "e"⟩ [] false true).2.2 :=
  ⟨batch_publish_policy.2.2.1 false
      [(⟨"a1", "t1"⟩, ⟨⟨false, true, true, fun _ => .success, [], true, "e"⟩, false, true⟩)]
      ⟨"a2", "t2"⟩ ⟨⟨false, true, true, fun _ => .success, [], true, "e"⟩, false, true⟩
      [] (by simp) (by simp) rfl rfl,
   (batch_publish_policy.2.2.2 ⟨"a1", "t1"⟩
      ⟨true, true, true, fun _ => .success, [], true, "e"⟩ [] false
      rfl (by simp) rfl rfl).2⟩

/-- The id list recorded by the selection loop is exactly the ids of the
selected candidates, in order. -/
theorem selectGo_ids (processedIds marked : List String) (force : Bool)
    (maxProcess : Nat) :
    ∀ (cands : List (Paper × CandidateEnv)) (cnt : Nat),
      (selectGo processedIds marked force maxProcess cands cnt).2 =
        (selectGo processedIds marked force maxProcess cands cnt).1.map
          (fun pe => pe.1.id) := by
  intro cands
  induction cands with
  | nil => intro cnt; rfl
  | cons pe rest ih =>
    intro cnt
    obtain ⟨p, e⟩ := pe
    simp only [selectGo]
    split_ifs with h1 h2 h3
    · rfl
    · simp [ih (cnt + 1)]
    · exact ih cnt
    · exact ih cnt

/-- Each selected paper produces exactly one outcome entry in the batch. -/
theorem runBatchGo_length (force skipT : Bool) :
    ∀ (sel : List (Paper × CandidateEnv)) (marked : List String),
      (runBatchGo force skipT sel marked).1.length = sel.length := by
  intro sel
  induction sel with
  | nil => intro marked; rfl
  | cons pe rest ih =>
    intro marked
    obtain ⟨p, e⟩ := pe
    simp [runBatchGo, ih]

/-- C9 (amended): the values `arxiv_downloader.main` reports are selection
artifacts, not outcome measurements: the reported count equals the number
of selected candidates and the output id list is exactly the selected
papers' ids (both recorded at selection time, before any pipeline outcome
is known, although each selected paper does produce exactly one outcome
entry); and the publish indicator equals "the skip flag is unset and the
selection is nonempty", independently of whether any publish call was
actually made. -/
theorem downloader_report (cands : List (Paper × CandidateEnv))
    (processedIds marked : List String) (force skipT : Bool) (maxProcess : Nat) :
    (downloaderMain cands processedIds marked force skipT maxProcess).processedCount
      = (downloaderMain cands processedIds marked force skipT maxProcess).selected.length ∧
    (downloaderMain cands processedIds marked force skipT maxProcess).newIds
      = (downloaderMain cands processedIds marked force skipT maxProcess).selected.map Paper.id ∧
    (downloaderMain cands processedIds marked force skipT maxProcess).successes.length
      = (downloaderMain cands processedIds marked force skipT maxProcess).selected.length ∧
    (downloaderMain cands processedIds marked force skipT maxProcess).twitterPosted
      = (!skipT && !(downloaderMain cands processedIds marked force skipT maxProcess).selected.isEmpty) := by
  by_cases h : (selectGo processedIds marked force maxProcess cands 0).1.isEmpty = true
  · have hd : downloaderMain cands processedIds marked force skipT maxProcess =
        ⟨[], [], 0, [], false, marked, []⟩ := by
      unfold downloaderMain
      simp [h]
    rw [hd]
    simp
  · have hd : downloaderMain cands processedIds marked force skipT maxProcess =
        ⟨(selectGo processedIds marked force maxProcess cands 0).1.map Prod.fst,
         (selectGo processedIds marked force maxProcess cands 0).2,
         (selectGo processedIds marked force maxProcess cands 0).2.length,
         (runBatchGo force skipT
           (selectGo processedIds marked force maxProcess cands 0).1 marked).1,
         !skipT,
         (runBatchGo force skipT
           (selectGo processedIds marked force maxProcess cands 0).1 marked).2.1,
         (runBatchGo force skipT
           (selectGo processedIds marked force maxProcess cands 0).1 marked).2.2⟩ := by
      unfold downloaderMain
      simp [h]
    rw [hd]
    refine ⟨?_, ?_, ?_, ?_⟩
    · rw [selectGo_ids]
      simp
    · rw [selectGo_ids]
      simp [List.map_map, Function.comp]
    · simp [runBatchGo_length]
    · rcases hsel : (selectGo processedIds marked force maxProcess cands 0).1 with
        _ | ⟨pe, rest⟩
      · rw [hsel] at h
        simp at h
      · simp

/-- C9 counterexample: a single selected paper whose extraction fails.  The
pipeline completes successfully for zero papers and no publish call is
made, yet the coordinator reports a processed count of 1 and a positive
publish indicator. -/
theorem downloader_report_cex :
    (downloaderMain
      [(⟨"2101.4", "t"⟩, ⟨⟨false, true, false, fun _ => .success, [], true, "e"⟩, false, true⟩)]
      [] [] false false 9999).processedCount = 1 ∧
    (downloaderMain
      [(⟨"2101.4", "t"⟩, ⟨⟨false, true, false, fun _ => .success, [], true, "e"⟩, false, true⟩)]
      [] [] false false 9999).successes = [false] ∧
    (downloaderMain
      [(⟨"2101.4", "t"⟩, ⟨⟨false, true, false, fun _ => .success, [], true, "e"⟩, false, true⟩)]
      [] [] false false 9999).twitterPosted = true ∧
    pubCalls (downloaderMain
      [(⟨"2101.4", "t"⟩, ⟨⟨false, true, false, fun _ => .success, [], true, "e"⟩, false, true⟩)]
      [] [] false false 9999).trace = [] :=
  ⟨rfl, rfl, rfl, rfl⟩

@[simp] theorem runSetIds_nil : runSetIds [] = [] := rfl

@[simp] theorem runSetIds_cons (e : OrchEvent) (l : List OrchEvent) :
    runSetIds (e :: l) =
      (match e with | .runSet i => [i] | _ => []) ++ runSetIds l := by
  cases e <;> rfl

@[simp] theorem runSetIds_append (l₁ l₂ : List OrchEvent) :
    runSetIds (l₁ ++ l₂) = runSetIds l₁ ++ runSetIds l₂ := by
  simp [runSetIds]

@[simp] theorem saveEvents_nil : saveEvents [] = [] := rfl

@[simp] theorem saveEvents_cons (e : OrchEvent) (l : List OrchEvent) :
    saveEvents (e :: l) =
      (match e with
        | OrchEvent.saveProcessedIds ids => [OrchEvent.saveProcessedIds ids]
        | OrchEvent.saveTimestamps wm => [OrchEvent.saveTimestamps wm]
        | _ => ([] : List OrchEvent)) ++ saveEvents l := by
  cases e <;> rfl

@[simp] theorem saveEvents_append (l₁ l₂ : List OrchEvent) :
    saveEvents (l₁ ++ l₂) = saveEvents l₁ ++ saveEvents l₂ := by
  simp [saveEvents]

/-- `setup_pdf_directory` always leaves `./dl` as a symlink to the keyword
set's PDF directory. -/
theorem setupPdfDirectory_dl (keywords : List String) (t : Nat) (dl : DlState) :
    (setupPdfDirectory keywords t dl).dl = .link (generatePdfDirName keywords t) := by
  cases dl <;> rfl

/-- `setup_pdf_directory` names the PDF directory from the keywords. -/
theorem setupPdfDirectory_pdfDir (keywords : List String) (t : Nat) (dl : DlState) :
    (setupPdfDirectory keywords t dl).pdfDir = generatePdfDirName keywords t := by
  cases dl <;> rfl

/-- The events of one `run_search_set` call: exactly the `./dl` re-pointing,
first. -/
theorem runSearchSet_events (s : SearchSet) (wm : List (String × Nat))
    (pids marked : List String) (dl : DlState) :
    (runSearchSet s wm pids marked dl).events =
      [.setupDl (setupPdfDirectory s.keywords s.startTime dl).pdfDir
        (setupPdfDirectory s.keywords s.startTime dl).removed] := by
  cases hc : s.downloaderCrashes <;> simp [runSearchSet, hc]

/-- A `run_search_set` call succeeds iff the downloader subprocess and the
web generator both succeed. -/
theorem runSearchSet_success (s : SearchSet) (wm : List (String × Nat))
    (pids marked : List String) (dl : DlState) :
    (runSearchSet s wm pids marked dl).success
      = (!s.downloaderCrashes && s.webGenOk) := by
  cases hc : s.downloaderCrashes <;> simp [runSearchSet, hc]

/-- The watermark map after `run_search_set`: unchanged on a downloader
crash, otherwise updated at this set's id with the run-start timestamp. -/
theorem runSearchSet_wm (s : SearchSet) (wm : List (String × Nat))
    (pids marked : List String) (dl : DlState) :
    (runSearchSet s wm pids marked dl).wm =
      (if s.downloaderCrashes = true then wm
       else wmInsert wm (searchSetId s) s.startTime) := by
  cases hc : s.downloaderCrashes <;> simp [runSearchSet, hc]

/-- The `./dl` state after `run_search_set`. -/
theorem runSearchSet_dl (s : SearchSet) (wm : List (String × Nat))
    (pids marked : List String) (dl : DlState) :
    (runSearchSet s wm pids marked dl).dl
      = .link (generatePdfDirName s.keywords s.startTime) := by
  cases hc : s.downloaderCrashes <;> simp [runSearchSet, hc, setupPdfDirectory_dl]

/-- Looking up the key just inserted returns the inserted timestamp. -/
theorem wmLookup_wmInsert_self (wm : List (String × Nat)) (k : String) (v : Nat) :
    wmLookup (wmInsert wm k v) k = some v := by
  simp [wmInsert, wmLookup]

/-- Filtering out another key does not change a lookup. -/
theorem wmLookup_filter_ne (k k' : String) (h : k' ≠ k) :
    ∀ wm : List (String × Nat),
      wmLookup (wm.filter (fun kv => kv.1 != k)) k' = wmLookup wm k' := by
  intro wm
  induction wm with
  | nil => rfl
  | cons a wm ih =>
    by_cases hk : a.1 = k
    · simp [List.filter_cons, hk, wmLookup, ih,
        (show ¬(k = k') from fun he => h he.symm)]
    · rcases hbk : (a.1 == k') <;>
        simp [List.filter_cons, hk, wmLookup, hbk, ih]

/-- Inserting one key does not change the lookup of a different key. -/
theorem wmLookup_wmInsert_other (wm : List (String × Nat)) (k k' : String)
    (v : Nat) (h : k' ≠ k) :
    wmLookup (wmInsert wm k v) k' = wmLookup wm k' := by
  have hb : (k == k') = false := by
    simp
    intro he
    exact h he.symm
  simp [wmInsert, wmLookup, hb, wmLookup_filter_ne k k' h wm]

/-- Step lemma: a misconfigured set is skipped with a warning. -/
theorem orchGo_cons_invalid (pids : List String) (s : SearchSet)
    (rest : List SearchSet) (st : OrchState) (h : validSet s = false) :
    orchGo pids (s :: rest) st =
      orchGo pids rest
        ⟨st.wm, st.marked, st.dl, st.allNew, st.results ++ [.skippedConfig],
          st.events, st.dlTrace⟩ := by
  simp [orchGo, h]

/-- Step lemma: an exception from `run_search_set` is caught and logged. -/
theorem orchGo_cons_raised (pids : List String) (s : SearchSet)
    (rest : List SearchSet) (st : OrchState) (h : validSet s = true)
    (hr : s.raisesException = true) :
    orchGo pids (s :: rest) st =
      orchGo pids rest
        ⟨st.wm, st.marked, st.dl, st.allNew, st.results ++ [.raised],
          st.events ++ [.runSet (searchSetId s), .logFailure (searchSetId s)],
          st.dlTrace⟩ := by
  simp [orchGo, h, hr]

/-- Step lemma: a normal (non-raising) `run_search_set` call. -/
theorem orchGo_cons_run (pids : List String) (s : SearchSet)
    (rest : List SearchSet) (st : OrchState) (h : validSet s = true)
    (hr : s.raisesException = false) :
    orchGo pids (s :: rest) st =
      orchGo pids rest
        ⟨(runSearchSet s st.wm pids st.marked st.dl).wm,
          (runSearchSet s st.wm pids st.marked st.dl).marked,
          (runSearchSet s st.wm pids st.marked st.dl).dl,
          st.allNew ++ (runSearchSet s st.wm pids st.marked st.dl).newIds,
          st.results ++
            [if (runSearchSet s st.wm pids st.marked st.dl).success then .ok
             else .failed],
          st.events ++ [.runSet (searchSetId s)]
            ++ (runSearchSet s st.wm pids st.marked st.dl).events
            ++ (if (runSearchSet s st.wm pids st.marked st.dl).success then []
                else [.logFailure (searchSetId s)]),
          st.dlTrace ++ (runSearchSet s st.wm pids st.marked st.dl).dlTrace⟩ := by
  simp [orchGo, h, hr]

/-- Running a concatenation of set lists is running them in sequence. -/
theorem orchGo_append (pids : List String) :
    ∀ (l₁ l₂ : List SearchSet) (st : OrchState),
      orchGo pids (l₁ ++ l₂) st = orchGo pids l₂ (orchGo pids l₁ st) := by
  intro l₁
  induction l₁ with
  | nil => intro l₂ st; rfl
  | cons s rest ih =>
    intro l₂ st
    cases hv : validSet s with
    | false =>
      rw [List.cons_append, orchGo_cons_invalid pids s (rest ++ l₂) st hv,
        orchGo_cons_invalid pids s rest st hv, ih]
    | true =>
      cases hr : s.raisesException with
      | true =>
        rw [List.cons_append, orchGo_cons_raised pids s (rest ++ l₂) st hv hr,
          orchGo_cons_raised pids s rest st hv hr, ih]
      | false =>
        rw [List.cons_append, orchGo_cons_run pids s (rest ++ l₂) st hv hr,
          orchGo_cons_run pids s rest st hv hr, ih]

/-- Every configured set contributes exactly one outcome entry. -/
theorem orchGo_results_length (pids : List String) :
    ∀ (sets : List SearchSet) (st : OrchState),
      (orchGo pids sets st).results.length = st.results.length + sets.length := by
  intro sets
  induction sets with
  | nil => intro st; simp [orchGo]
  | cons s rest ih =>
    intro st
    cases hv : validSet s with
    | false =>
      rw [orchGo_cons_invalid pids s rest st hv, ih]
      simp
      omega
    | true =>
      cases hr : s.raisesException with
      | true =>
        rw [orchGo_cons_raised pids s rest st hv hr, ih]
        simp
        omega
      | false =>
        rw [orchGo_cons_run pids s rest st hv hr, ih]
        simp
        omega

/-- The orchestrator loop itself never persists anything: it adds no save
events. -/
theorem orchGo_saveEvents (pids : List String) :
    ∀ (sets : List SearchSet) (st : OrchState),
      saveEvents (orchGo pids sets st).events = saveEvents st.events := by
  intro sets
  induction sets with
  | nil => intro st; rfl
  | cons s rest ih =>
    intro st
    cases hv : validSet s with
    | false => rw [orchGo_cons_invalid pids s rest st hv, ih]
    | true =>
      cases hr : s.raisesException with
      | true =>
        rw [orchGo_cons_raised pids s rest st hv hr, ih]
        simp
      | false =>
        rw [orchGo_cons_run pids s rest st hv hr, ih]
        simp [runSearchSet_events]
        split_ifs <;> simp

/-- The sets the orchestrator loop runs, in order: every valid set exactly
once, regardless of any failures. -/
theorem orchGo_runSetIds (pids : List String) :
    ∀ (sets : List SearchSet) (st : OrchState),
      runSetIds (orchGo pids sets st).events =
        runSetIds st.events
          ++ (sets.filter (fun s => validSet s)).map searchSetId := by
  intro sets
  induction sets with
  | nil => intro st; simp [orchGo]
  | cons s rest ih =>
    intro st
    cases hv : validSet s with
    | false =>
      rw [orchGo_cons_invalid pids s rest st hv, ih]
      simp [List.filter_cons, hv]
    | true =>
      cases hr : s.raisesException with
      | true =>
        rw [orchGo_cons_raised pids s rest st hv hr, ih]
        simp [List.filter_cons, hv]
      | false =>
        rw [orchGo_cons_run pids s rest st hv hr, ih]
        simp [List.filter_cons, hv, runSearchSet_events]
        split_ifs <;> simp

/-- Events already present stay present through the rest of the loop. -/
theorem orchGo_events_mono (pids : List String) :
    ∀ (sets : List SearchSet) (st : OrchState) (x : OrchEvent),
      x ∈ st.events → x ∈ (orchGo pids sets st).events := by
  intro sets
  induction sets with
  | nil => intro st x hx; exact hx
  | cons s rest ih =>
    intro st x hx
    cases hv : validSet s with
    | false =>
      rw [orchGo_cons_invalid pids s rest st hv]
      exact ih _ x hx
    | true =>
      cases hr : s.raisesException with
      | true =>
        rw [orchGo_cons_raised pids s rest st hv hr]
        exact ih _ x (by simp [hx])
      | false =>
        rw [orchGo_cons_run pids s rest st hv hr]
        exact ih _ x (by simp [hx])

/-- A watermark key not owned by any of the remaining sets is untouched by
the rest of the loop. -/
theorem orchGo_wm_keep (pids : List String) (sid : String) :
    ∀ (sets : List SearchSet) (st : OrchState),
      (∀ s ∈ sets, searchSetId s ≠ sid) →
      wmLookup (orchGo pids sets st).wm sid = wmLookup st.wm sid := by
  intro sets
  induction sets with
  | nil => intro st _; rfl
  | cons s rest ih =>
    intro st hall
    have hs : searchSetId s ≠ sid := hall s (by simp)
    have hrest : ∀ s' ∈ rest, searchSetId s' ≠ sid := fun s' hs' =>
      hall s' (by simp [hs'])
    cases hv : validSet s with
    | false =>
      rw [orchGo_cons_invalid pids s rest st hv]
      exact ih _ hrest
    | true =>
      cases hr : s.raisesException with
      | true =>
        rw [orchGo_cons_raised pids s rest st hv hr]
        exact ih _ hrest
      | false =>
        rw [orchGo_cons_run pids s rest st hv hr, ih _ hrest]
        dsimp only
        rw [runSearchSet_wm]
        split_ifs
        · rfl
        · exact wmLookup_wmInsert_other st.wm (searchSetId s) sid s.startTime
            (fun he => hs he.symm)

theorem orchestratorMain_events (sets : List SearchSet)
    (wm₀ : List (String × Nat)) (pids marked₀ : List String) (dl₀ : DlState) :
    (orchestratorMain sets wm₀ pids marked₀ dl₀).finalState.events =
      (orchGo pids sets (initState wm₀ marked₀ dl₀)).events
        ++ [.saveProcessedIds
              (pids ++ (orchGo pids sets (initState wm₀ marked₀ dl₀)).allNew),
            .saveTimestamps (orchGo pids sets (initState wm₀ marked₀ dl₀)).wm] := rfl

theorem orchestratorMain_results (sets : List SearchSet)
    (wm₀ : List (String × Nat)) (pids marked₀ : List String) (dl₀ : DlState) :
    (orchestratorMain sets wm₀ pids marked₀ dl₀).finalState.results =
      (orchGo pids sets (initState wm₀ marked₀ dl₀)).results := rfl

theorem orchestratorMain_wm (sets : List SearchSet)
    (wm₀ : List (String × Nat)) (pids marked₀ : List String) (dl₀ : DlState) :
    (orchestratorMain sets wm₀ pids marked₀ dl₀).finalState.wm =
      (orchGo pids sets (initState wm₀ marked₀ dl₀)).wm := rfl

theorem orchestratorMain_marked (sets : List SearchSet)
    (wm₀ : List (String × Nat)) (pids marked₀ : List String) (dl₀ : DlState) :
    (orchestratorMain sets wm₀ pids marked₀ dl₀).finalState.marked =
      (orchGo pids sets (initState wm₀ marked₀ dl₀)).marked := rfl

theorem orchestratorMain_dl (sets : List SearchSet)
    (wm₀ : List (String × Nat)) (pids marked₀ : List String) (dl₀ : DlState) :
    (orchestratorMain sets wm₀ pids marked₀ dl₀).finalState.dl =
      (orchGo pids sets (initState wm₀ marked₀ dl₀)).dl := rfl

theorem orchestratorMain_dlTrace (sets : List SearchSet)
    (wm₀ : List (String × Nat)) (pids marked₀ : List String) (dl₀ : DlState) :
    (orchestratorMain sets wm₀ pids marked₀ dl₀).finalState.dlTrace =
      (orchGo pids sets (initState wm₀ marked₀ dl₀)).dlTrace := rfl

theorem orchestratorMain_savedIds (sets : List SearchSet)
    (wm₀ : List (String × Nat)) (pids marked₀ : List String) (dl₀ : DlState) :
    (orchestratorMain sets wm₀ pids marked₀ dl₀).savedIds =
      pids ++ (orchGo pids sets (initState wm₀ marked₀ dl₀)).allNew := rfl

/-- C10: `run_search_set` begins by re-pointing the shared `./dl` path (the
set-up event is the head of its event list); afterwards `./dl` is a symlink
to that keyword set's own PDF directory; an existing symlink is simply
replaced (nothing removed), an absent `./dl` is simply created, and an
existing real directory is recursively deleted — its contents are exactly
what gets removed — before the link is created. -/
theorem dl_symlink_setup :
    ∀ (s : SearchSet) (wm : List (String × Nat)) (pids marked : List String)
      (dl : DlState),
      (runSearchSet s wm pids marked dl).dl
        = .link (generatePdfDirName s.keywords s.startTime) ∧
      (runSearchSet s wm pids marked dl).events.head?
        = some (.setupDl (setupPdfDirectory s.keywords s.startTime dl).pdfDir
            (setupPdfDirectory s.keywords s.startTime dl).removed) ∧
      (setupPdfDirectory s.keywords s.startTime dl).dl
        = .link (setupPdfDirectory s.keywords s.startTime dl).pdfDir ∧
      (dl = .absent →
        (setupPdfDirectory s.keywords s.startTime dl).removed = []) ∧
      (∀ t, dl = .link t →
        (setupPdfDirectory s.keywords s.startTime dl).removed = []) ∧
      (∀ c, dl = .realDir c →
        (setupPdfDirectory s.keywords s.startTime dl).removed = c) := by
  intro s wm pids marked dl
  refine ⟨runSearchSet_dl s wm pids marked dl, ?_, ?_, ?_, ?_, ?_⟩
  · rw [runSearchSet_events]
    rfl
  · rw [setupPdfDirectory_dl, setupPdfDirectory_pdfDir]
  · intro h
    subst h
    rfl
  · intro t h
    subst h
    rfl
  · intro c h
    subst h
    rfl

/-- Witness for C10: re-pointing over an existing real directory removes
exactly its contents, and the new `./dl` is the keyword set's PDF
directory. -/
theorem dl_symlink_setup_wit :
    (setupPdfDirectory (SearchSet.mk ["quantum"] "./out" true [] 5 false true
        false).keywords
      (SearchSet.mk ["quantum"] "./out" true [] 5 false true false).startTime
      (.realDir ["old.pdf"])).removed = ["old.pdf"] ∧
    (runSearchSet (SearchSet.mk ["quantum"] "./out" true [] 5 false true false)
      [] [] [] (.realDir ["old.pdf"])).dl = .link "./pdf/quantum" :=
  ⟨(dl_symlink_setup (SearchSet.mk ["quantum"] "./out" true [] 5 false true false)
      [] [] [] (.realDir ["old.pdf"])).2.2.2.2.2 ["old.pdf"] rfl,
   (dl_symlink_setup (SearchSet.mk ["quantum"] "./out" true [] 5 false true false)
      [] [] [] (.realDir ["old.pdf"])).1⟩

/-- C7: the orchestrator runs every valid keyword set exactly once, in
configuration order, regardless of failures (no retry, no abort: the run
list is exactly the valid sets, and every configured set gets exactly one
outcome entry); and any failing run — exception, downloader crash, or web
generation failure — produces a failure log event while the pass still
completes with its end-of-pass persistence. -/
theorem keyword_set_failure_isolation :
    (∀ (pids : List String) (sets : List SearchSet) (wm₀ : List (String × Nat))
      (marked₀ : List String) (dl₀ : DlState),
      runSetIds (orchestratorMain sets wm₀ pids marked₀ dl₀).finalState.events
        = (sets.filter (fun s => validSet s)).map searchSetId ∧
      (orchestratorMain sets wm₀ pids marked₀ dl₀).finalState.results.length
        = sets.length) ∧
    (∀ (pids : List String) (pre : List SearchSet) (s : SearchSet)
      (post : List SearchSet) (wm₀ : List (String × Nat))
      (marked₀ : List String) (dl₀ : DlState),
      validSet s = true →
      (s.raisesException = true ∨ s.downloaderCrashes = true ∨
        s.webGenOk = false) →
      OrchEvent.logFailure (searchSetId s)
        ∈ (orchestratorMain (pre ++ s :: post) wm₀ pids marked₀ dl₀).finalState.events) := by
  constructor
  · intro pids sets wm₀ marked₀ dl₀
    constructor
    · rw [orchestratorMain_events, runSetIds_append, orchGo_runSetIds]
      simp [initState]
    · rw [orchestratorMain_results, orchGo_results_length]
      simp [initState]
  · intro pids pre s post wm₀ marked₀ dl₀ hv hfail
    rw [orchestratorMain_events]
    apply List.mem_append_left
    rw [orchGo_append]
    by_cases hre : s.raisesException = true
    · rw [orchGo_cons_raised pids s post _ hv hre]
      apply orchGo_events_mono
      simp
    · have hre' : s.raisesException = false := by simpa using hre
      rw [orchGo_cons_run pids s post _ hv hre']
      apply orchGo_events_mono
      have hsucc : (runSearchSet s (orchGo pids pre (initState wm₀ marked₀ dl₀)).wm
          pids (orchGo pids pre (initState wm₀ marked₀ dl₀)).marked
          (orchGo pids pre (initState wm₀ marked₀ dl₀)).dl).success = false := by
        rw [runSearchSet_success]
        rcases hfail with hc | hc | hw
        · exact absurd hc hre
        · simp [hc]
        · simp [hw]
      simp [hsucc]

/-- Witness for C7: a crashing keyword set is logged as failed while the
orchestrator still reports one outcome for each configured set. -/
theorem keyword_set_failure_isolation_wit :
    OrchEvent.logFailure
        (searchSetId (SearchSet.mk ["q"] "./o" true [] 7 true true false))
      ∈ (orchestratorMain
          ([] ++ (SearchSet.mk ["q"] "./o" true [] 7 true true false) :: [])
          [] [] [] .absent).finalState.events ∧
    (orchestratorMain
        ([] ++ (SearchSet.mk ["q"] "./o" true [] 7 true true false) :: [])
        [] [] [] .absent).finalState.results.length = 1 :=
  ⟨keyword_set_failure_isolation.2 [] [] (SearchSet.mk ["q"] "./o" true [] 7 true
      true false) [] [] [] .absent rfl (Or.inr (Or.inl rfl)),
   (keyword_set_failure_isolation.1 []
      ([] ++ (SearchSet.mk ["q"] "./o" true [] 7 true true false) :: [])
      [] [] .absent).2⟩

/-- C6: for a keyword-set run that succeeds (no exception, downloader and
web generation both succeed), the watermark stored for that set at the end
of the pass is the timestamp captured at the run's start (provided no later
set shares its id); and the watermark map and the shared processed-id set
are persisted exactly once, after all keyword sets have run: the event list
ends with the two save events and contains no other save event. -/
theorem watermark_and_single_persist :
    (∀ (pids : List String) (pre : List SearchSet) (s : SearchSet)
      (post : List SearchSet) (wm₀ : List (String × Nat))
      (marked₀ : List String) (dl₀ : DlState),
      validSet s = true → s.raisesException = false →
      s.downloaderCrashes = false → s.webGenOk = true →
      (∀ s' ∈ post, searchSetId s' ≠ searchSetId s) →
      wmLookup
        (orchestratorMain (pre ++ s :: post) wm₀ pids marked₀ dl₀).finalState.wm
        (searchSetId s) = some s.startTime) ∧
    (∀ (sets : List SearchSet) (wm₀ : List (String × Nat))
      (pids marked₀ : List String) (dl₀ : DlState), ∃ evs,
      (orchestratorMain sets wm₀ pids marked₀ dl₀).finalState.events =
        evs ++ [.saveProcessedIds (orchestratorMain sets wm₀ pids marked₀ dl₀).savedIds,
                .saveTimestamps (orchestratorMain sets wm₀ pids marked₀ dl₀).finalState.wm] ∧
      saveEvents evs = []) := by
  constructor
  · intro pids pre s post wm₀ marked₀ dl₀ hv hre hc hw hpost
    rw [orchestratorMain_wm, orchGo_append,
      orchGo_cons_run pids s post _ hv hre,
      orchGo_wm_keep pids (searchSetId s) post _ hpost]
    dsimp only
    rw [runSearchSet_wm]
    rw [if_neg (by simp [hc])]
    exact wmLookup_wmInsert_self _ _ _
  · intro sets wm₀ pids marked₀ dl₀
    refine ⟨(orchGo pids sets (initState wm₀ marked₀ dl₀)).events, ?_, ?_⟩
    · rw [orchestratorMain_events, orchestratorMain_savedIds, orchestratorMain_wm]
    · rw [orchGo_saveEvents]
      rfl

/-- Witness for C6: a concrete successful single-set pass stores the
run-start timestamp under the set's id. -/
theorem watermark_and_single_persist_wit :
    wmLookup
      (orchestratorMain
        ([] ++ (SearchSet.mk ["q"] "./o" true [] 42 false true false) :: [])
        [] [] [] .absent).finalState.wm
      (searchSetId (SearchSet.mk ["q"] "./o" true [] 42 false true false))
      = some 42 :=
  watermark_and_single_persist.1 [] []
    (SearchSet.mk ["q"] "./o" true [] 42 false true false) [] [] [] .absent
    rfl rfl rfl rfl (by simp)

/-- C1 counterexample: in a pass over `c1Set`, the paper's summarization is
attempted 3 times and fails, so no ledger marker is written — but its id IS
in the persisted shared processed-id set (the downloader records ids at
selection time), and a second pass over the same candidate does not
reprocess it: its pipeline trace is empty. -/
theorem summ_fail_id_merged_cex :
    summCalls (orchestratorMain [c1Set] [] [] [] .absent).finalState.dlTrace
      = ["2101.00001", "2101.00001", "2101.00001"] ∧
    (orchestratorMain [c1Set] [] [] [] .absent).finalState.marked = [] ∧
    "2101.00001" ∈ (orchestratorMain [c1Set] [] [] [] .absent).savedIds ∧
    (orchestratorMain [c1Set]
        (orchestratorMain [c1Set] [] [] [] .absent).finalState.wm
        (orchestratorMain [c1Set] [] [] [] .absent).savedIds
        (orchestratorMain [c1Set] [] [] [] .absent).finalState.marked
        (orchestratorMain [c1Set] [] [] [] .absent).finalState.dl).finalState.dlTrace
      = [] :=
  ⟨rfl, rfl, by decide, rfl⟩

/-- C1 (amended): for a candidate paper (fetchable, extractable) whose
summarization fails on every attempt, a full orchestrator pass writes no
ledger marker for it — but, because the downloader records ids at selection
time, the id IS merged into the persisted shared processed-id set, and a
subsequent pass presented the same candidate does not reprocess it: the
selection skip check rejects it and the pipeline never runs (empty trace),
rather than reprocessing from the fetch-skip-check stage onward. -/
theorem summ_fail_not_reprocessed (p : Paper) (e : CandidateEnv)
    (kws : List String) (out : String) (tw web : Bool) (t0 : Nat)
    (wm₀ : List (String × Nat)) (pids marked₀ : List String) (dl₀ : DlState)
    (hkw : kws.isEmpty = false) (hout : (out == "") = false)
    (hav : (e.copyExists || e.selDownloadOk) = true)
    (hex : e.paperEnv.extractOk = true)
    (hfail : ∀ i, (e.paperEnv.summOutcome i).isFail = true)
    (hp : p.id ∉ pids) (hm : p.id ∉ marked₀) :
    p.id ∉ (orchestratorMain [⟨kws, out, tw, [(p, e)], t0, false, web, false⟩]
        wm₀ pids marked₀ dl₀).finalState.marked ∧
    p.id ∈ (orchestratorMain [⟨kws, out, tw, [(p, e)], t0, false, web, false⟩]
        wm₀ pids marked₀ dl₀).savedIds ∧
    (orchestratorMain [⟨kws, out, tw, [(p, e)], t0, false, web, false⟩]
        (orchestratorMain [⟨kws, out, tw, [(p, e)], t0, false, web, false⟩]
          wm₀ pids marked₀ dl₀).finalState.wm
        (orchestratorMain [⟨kws, out, tw, [(p, e)], t0, false, web, false⟩]
          wm₀ pids marked₀ dl₀).savedIds
        (orchestratorMain [⟨kws, out, tw, [(p, e)], t0, false, web, false⟩]
          wm₀ pids marked₀ dl₀).finalState.marked
        (orchestratorMain [⟨kws, out, tw, [(p, e)], t0, false, web, false⟩]
          wm₀ pids marked₀ dl₀).finalState.dl).finalState.dlTrace = [] := by
  have hv : validSet ⟨kws, out, tw, [(p, e)], t0, false, web, false⟩ = true := by
    simp [validSet, hkw, hout]
  have hret : runRetry e.paperEnv.summOutcome = (false, [2, 4], 3) := by
    rw [runRetry_eq]
    simp [hfail 0, hfail 1, hfail 2]
  have hpp : ∀ skipT : Bool, processPaper p e.paperEnv.onDisk marked₀ false skipT =
      (false, marked₀,
        .fetchCall p.id :: .skipCheck p.id (marked₀.contains p.id) ::
          .extractCall p.id ::
          mkSummEvents p.id (runRetry e.paperEnv.onDisk.summOutcome).2.1) := by
    intro skipT
    exact processPaper_summ_fail p e.paperEnv.onDisk marked₀ false skipT
      (by simp [PaperEnv.onDisk])
      (fun hmem => absurd hmem hm)
      (by simp [PaperEnv.onDisk, hex])
      (by simp [PaperEnv.onDisk, hret])
  have hsel : selectGo pids marked₀ false 9999 [(p, e)] 0 = ([(p, e)], [p.id]) := by
    simp [selectGo, isProcessed, hp, hm, hav]
  have hbatch : runBatchGo false (!tw) [(p, e)] marked₀ =
      ([false], marked₀,
        .fetchCall p.id :: .skipCheck p.id (marked₀.contains p.id) ::
          .extractCall p.id ::
          mkSummEvents p.id (runRetry e.paperEnv.onDisk.summOutcome).2.1) := by
    simp [runBatchGo, hpp]
  have hdl : downloaderMain [(p, e)] pids marked₀ false (!tw) 9999 =
      ⟨[p], [p.id], 1, [false], tw, marked₀,
        .fetchCall p.id :: .skipCheck p.id (marked₀.contains p.id) ::
          .extractCall p.id ::
          mkSummEvents p.id (runRetry e.paperEnv.onDisk.summOutcome).2.1⟩ := by
    simp [downloaderMain, hsel, hbatch]
  have hni : (runSearchSet ⟨kws, out, tw, [(p, e)], t0, false, web, false⟩
      wm₀ pids marked₀ dl₀).newIds = [p.id] := by
    simp [runSearchSet, hdl]
  have hmk : (runSearchSet ⟨kws, out, tw, [(p, e)], t0, false, web, false⟩
      wm₀ pids marked₀ dl₀).marked = marked₀ := by
    simp [runSearchSet, hdl]
  have hwm : (runSearchSet ⟨kws, out, tw, [(p, e)], t0, false, web, false⟩
      wm₀ pids marked₀ dl₀).wm =
      wmInsert wm₀
        (searchSetId ⟨kws, out, tw, [(p, e)], t0, false, web, false⟩) t0 := by
    simp [runSearchSet, hdl]
  have hdlp : (runSearchSet ⟨kws, out, tw, [(p, e)], t0, false, web, false⟩
      wm₀ pids marked₀ dl₀).dl = (setupPdfDirectory kws t0 dl₀).dl := by
    simp [runSearchSet]
  refine ⟨?_, ?_, ?_⟩
  · rw [orchestratorMain_marked,
      orchGo_cons_run pids _ [] (initState wm₀ marked₀ dl₀) hv rfl]
    simp only [orchGo]
    dsimp only [initState]
    rw [hmk]
    exact hm
  · rw [orchestratorMain_savedIds,
      orchGo_cons_run pids _ [] (initState wm₀ marked₀ dl₀) hv rfl]
    simp only [orchGo]
    dsimp only [initState]
    rw [hni]
    simp
  · have hwm1 : (orchestratorMain [⟨kws, out, tw, [(p, e)], t0, false, web, false⟩]
        wm₀ pids marked₀ dl₀).finalState.wm =
        wmInsert wm₀
          (searchSetId ⟨kws, out, tw, [(p, e)], t0, false, web, false⟩) t0 := by
      rw [orchestratorMain_wm,
        orchGo_cons_run pids _ [] (initState wm₀ marked₀ dl₀) hv rfl]
      simp only [orchGo]
      dsimp only [initState]
      rw [hwm]
    have hmk1 : (orchestratorMain [⟨kws, out, tw, [(p, e)], t0, false, web, false⟩]
        wm₀ pids marked₀ dl₀).finalState.marked = marked₀ := by
      rw [orchestratorMain_marked,
        orchGo_cons_run pids _ [] (initState wm₀ marked₀ dl₀) hv rfl]
      simp only [orchGo]
      dsimp only [initState]
      rw [hmk]
    have hsv1 : (orchestratorMain [⟨kws, out, tw, [(p, e)], t0, false, web, false⟩]
        wm₀ pids marked₀ dl₀).savedIds = pids ++ [p.id] := by
      rw [orchestratorMain_savedIds,
        orchGo_cons_run pids _ [] (initState wm₀ marked₀ dl₀) hv rfl]
      simp only [orchGo]
      dsimp only [initState]
      rw [hni]
      simp
    have hdl1 : (orchestratorMain [⟨kws, out, tw, [(p, e)], t0, false, web, false⟩]
        wm₀ pids marked₀ dl₀).finalState.dl = (setupPdfDirectory kws t0 dl₀).dl := by
      rw [orchestratorMain_dl,
        orchGo_cons_run pids _ [] (initState wm₀ marked₀ dl₀) hv rfl]
      simp only [orchGo]
      dsimp only [initState]
      rw [hdlp]
    rw [hwm1, hmk1, hsv1, hdl1]
    have hsel2 : selectGo (pids ++ [p.id]) marked₀ false 9999 [(p, e)] 0
        = ([], []) := by
      simp [selectGo, isProcessed]
    have hdl2 : downloaderMain [(p, e)] (pids ++ [p.id]) marked₀ false (!tw) 9999
        = ⟨[], [], 0, [], false, marked₀, []⟩ := by
      simp [downloaderMain, hsel2]
    have hrs2 : (runSearchSet ⟨kws, out, tw, [(p, e)], t0, false, web, false⟩
        (wmInsert wm₀
          (searchSetId ⟨kws, out, tw, [(p, e)], t0, false, web, false⟩) t0)
        (pids ++ [p.id]) marked₀ ((setupPdfDirectory kws t0 dl₀).dl)).dlTrace
        = [] := by
      simp [runSearchSet, hdl2]
    rw [orchestratorMain_dlTrace,
      orchGo_cons_run (pids ++ [p.id]) _ []
        (initState
          (wmInsert wm₀
            (searchSetId ⟨kws, out, tw, [(p, e)], t0, false, web, false⟩) t0)
          marked₀ ((setupPdfDirectory kws t0 dl₀).dl)) hv rfl]
    simp only [orchGo]
    dsimp only [initState]
    rw [hrs2]
    rfl

/-- Witness for the C1 amended theorem at the concrete scenario. -/
theorem summ_fail_not_reprocessed_wit :
    c1Paper.id ∉ (orchestratorMain
        [⟨["quantum", "crypto"], "./html/qc", true, [(c1Paper, c1Env)], 1000,
          false, true, false⟩] [] [] [] .absent).finalState.marked ∧
    c1Paper.id ∈ (orchestratorMain
        [⟨["quantum", "crypto"], "./html/qc", true, [(c1Paper, c1Env)], 1000,
          false, true, false⟩] [] [] [] .absent).savedIds :=
  ⟨(summ_fail_not_reprocessed c1Paper c1Env ["quantum", "crypto"] "./html/qc"
      true true 1000 [] [] [] .absent rfl rfl rfl rfl (fun _ => rfl)
      (by simp) (by simp)).1,
   (summ_fail_not_reprocessed c1Paper c1Env ["quantum", "crypto"] "./html/qc"
      true true 1000 [] [] [] .absent rfl rfl rfl rfl (fun _ => rfl)
      (by simp) (by simp)).2.1⟩

end ArxivBot
